import Mathlib

/-!
A shallow embedding of the VAPI / Relevance Flask middleware
(source files `dawn_middleware.py` and `translator.py`).

The embedding covers the single-row conversation store backed by the
`conversation` SQLite table, the outbound trigger-payload construction of
`trigger_agent` (both variants), the bounded polling loop
`poll_for_updates`, the word-by-word response streamer `generate`, and
the `/chat/completions` handler pipeline of `dawn_middleware.py`.
-/

namespace Middleware

/-- The reserved placeholder conversation id (the literal `'1234'` in
`dawn_middleware.py`) meaning that no upstream conversation exists yet. -/
def sentinel : String := "1234"

/-- `MAX_POLL_ATTEMPTS = 120`. -/
def MAX_POLL_ATTEMPTS : Nat := 120

/-- `POLL_DELAY = 1` second; the real-time sleep itself is not modelled. -/
def POLL_DELAY : Nat := 1

/-- One row of the `conversation` table: `relevance_agent_id` and
`relevance_conversation_id` (the surrogate autoincrement id is dropped,
as no code path reads it). -/
structure Row where
  agentId : String
  convId : String
deriving DecidableEq

/-- The `conversation` table, rows in rowid (insertion) order. -/
abbrev DB := List Row

/-- `cursor.fetchone()` after a `SELECT` over `conversation` (optionally
`LIMIT 1`): the first row, if any. -/
def fetchOne (db : DB) : Option Row := db.head?

/-- `DELETE FROM conversation` (`delete_all_records`). -/
def delete_all_records (_db : DB) : DB := []

/-- `UPDATE conversation SET relevance_agent_id = ?` — no WHERE clause,
so every row is updated. -/
def updateAgentId (db : DB) (a : String) : DB :=
  db.map (fun r => ⟨a, r.convId⟩)

/-- `UPDATE conversation SET relevance_conversation_id = ?` — no WHERE
clause, so every row is updated. -/
def updateConvId (db : DB) (c : String) : DB :=
  db.map (fun r => ⟨r.agentId, c⟩)

/-- First database block of `chat_completions` (`dawn_middleware.py`
lines 214-240): read the existing record; if one exists and its stored
conversation id is not the sentinel, update `relevance_agent_id`; if
none exists, insert `(agentId, sentinel)`.  Returns the new table and
the local `relevance_conversation_id` the handler computes. -/
def upsertPhase1 (db : DB) (agentId : String) : DB × String :=
  match fetchOne db with
  | some existing =>
    if existing.convId ≠ sentinel then
      (updateAgentId db agentId, existing.convId)
    else
      (db, sentinel)
  | none => (db ++ [⟨agentId, sentinel⟩], sentinel)

/-- Second database block of `chat_completions` (`dawn_middleware.py`
lines 268-279): after the trigger call returns `real_conversation_id`,
update `relevance_conversation_id` only when it differs from the
sentinel. -/
def upsertPhase2 (db : DB) (realConversationId : String) : DB :=
  if realConversationId ≠ sentinel then updateConvId db realConversationId else db

/-- The store-level upsert a single `/chat/completions` request
performs: phase 1 before the trigger call, then phase 2 with the
upstream-returned conversation id. -/
def upsert (db : DB) (agentId conversationId : String) : DB :=
  upsertPhase2 (upsertPhase1 db agentId).1 conversationId

/-- The upsert as the specification words it, for comparison with the
implementation: if no record exists, create one from the supplied
values; if one exists, always update its `agentId`, and update its
stored conversation id only when the supplied `conversationId` is not
the sentinel. -/
def upsertSpec (db : DB) (agentId conversationId : String) : DB :=
  match db with
  | [] => [⟨agentId, conversationId⟩]
  | r :: rest =>
    ⟨agentId, if conversationId = sentinel then r.convId else conversationId⟩ :: rest

/-- A flat key-value JSON object, used for the nested `output.output`
payload, later read with `.get('answer', '')`. -/
abbrev AnswerDict := List (String × String)

/-- Python `d.get(key, default)` on an `AnswerDict`. -/
def dictGet (d : AnswerDict) (key dflt : String) : String :=
  match d.find? (fun kv => kv.1 == key) with
  | some kv => kv.2
  | none => dflt

/-- The `output` field of an update; its own `output` field is the
answer payload. -/
structure UpdateOutput where
  output : AnswerDict
deriving DecidableEq

/-- One element of a poll status's `updates` list. -/
structure Update where
  type : String
  output : UpdateOutput
deriving DecidableEq

/-- A decoded poll-response body: `type` plus the `updates` list
(`status.get('updates', [])` yields `[]` when the key is absent). -/
structure PollStatus where
  type : String
  updates : List Update
deriving DecidableEq

/-- One polling iteration's observable outcome of `requests.get` +
`raise_for_status()` + `.json()`: either a `RequestException` or a
decoded status body. -/
inductive PollResponse where
| err
| ok (status : PollStatus)
deriving DecidableEq

/-- The three distinguishable exits of `poll_for_updates`: returning
`update['output']['output']`; returning `None` from the
`RequestException` handler; and returning `None` after the loop runs
out, printing `Max polling attempts reached`. -/
inductive PollResult where
| success (payload : AnswerDict)
| transportError
| timeout
deriving DecidableEq

/-- The inner `for update in status.get('updates', [])` loop: the first
update whose `type` is `'chain-success'` makes the function return its
`output.output`; otherwise the loop falls through. -/
def findChainSuccess : List Update → Option AnswerDict
  | [] => none
  | u :: rest =>
    if u.type = "chain-success" then some u.output.output else findChainSuccess rest

/-- What one decoded status makes the loop body return, if anything: a
payload exactly when `type == 'complete'` and a chain-success update
exists. -/
def successOf (st : PollStatus) : Option AnswerDict :=
  if st.type = "complete" then findChainSuccess st.updates else none

/-- Whether one iteration's response lets the loop continue to the next
iteration (sleep and retry): true exactly when the request succeeded
and the body yields no answer. -/
def continuesPolling : PollResponse → Bool
  | .err => false
  | .ok st => (successOf st).isNone

/-- The polling loop.  `s` maps each iteration index to that
iteration's response; `k` counts HTTP requests issued so far and the
second component of the result is the final count. -/
def pollAux (s : Nat → PollResponse) : Nat → Nat → PollResult × Nat
  | 0, k => (.timeout, k)
  | fuel + 1, k =>
    match s k with
    | .err => (.transportError, k + 1)
    | .ok status =>
      match successOf status with
      | some a => (.success a, k + 1)
      | none => pollAux s fuel (k + 1)

/-- `poll_for_updates` over a response oracle: the loop
`for _ in range(MAX_POLL_ATTEMPTS)` starting with no requests issued.
Returns the exit taken and the total number of status requests made. -/
def poll_for_updates (s : Nat → PollResponse) : PollResult × Nat :=
  pollAux s MAX_POLL_ATTEMPTS 0

/-- Python `str.split()` with no argument: split on runs of whitespace,
producing no empty tokens.  `acc` holds the current word reversed. -/
def wordsAux : List Char → List Char → List String
  | [], acc => if acc.isEmpty then [] else [String.mk acc.reverse]
  | c :: cs, acc =>
    if c.isWhitespace then
      if acc.isEmpty then wordsAux cs [] else String.mk acc.reverse :: wordsAux cs []
    else wordsAux cs (c :: acc)

/-- `latest_response.split()`. -/
def pySplit (s : String) : List String := wordsAux s.data []

/-- The spec's `wordCount`: the number of whitespace-delimited tokens. -/
def wordCount (t : String) : Nat := (pySplit t).length

/-- One server-sent event of the response stream: either a data chunk
carrying `delta.content` and `delta.role`, or the end-of-stream
sentinel line `data: [DONE]`. -/
inductive StreamEvent where
| chunk (content role : String)
| done
deriving DecidableEq

/-- The `generate()` generator (identical in both source files): one
chunk per word, whose `content` is the word plus a trailing space and
whose `role` is `'assistant'`, followed by the end-of-stream
sentinel. -/
def generate (latest_response : String) : List StreamEvent :=
  ((pySplit latest_response).map
    (fun word => StreamEvent.chunk (word ++ " ") "assistant")) ++ [StreamEvent.done]

/-- Whether an event is a data chunk rather than the sentinel. -/
def isChunk : StreamEvent → Bool
  | .chunk _ _ => true
  | .done => false

/-- The `delta.content` fields of the events before the sentinel. -/
def deltaContents (es : List StreamEvent) : List String :=
  (es.takeWhile isChunk).filterMap
    (fun e => match e with | .chunk c _ => some c | .done => none)

/-- Plain left-to-right string concatenation. -/
def concatStrings : List String → String
  | [] => ""
  | s :: rest => s ++ concatStrings rest

/-- Concatenation of the `delta.content` fields before the sentinel. -/
def concatContents (es : List StreamEvent) : String :=
  concatStrings (deltaContents es)

/-- Words joined with single-space separators and no trailing
separator: the text the words reproduce "with single-space
separators". -/
def joinWords : List String → String
  | [] => ""
  | w :: ws => if ws.isEmpty then w else w ++ " " ++ joinWords ws

/-- The outbound trigger payload: the message role and content, the
agent id, and the optional `conversation_id` field. -/
structure TriggerPayload where
  message_role : String
  message_content : String
  agent_id : String
  conversation_id : Option String
deriving DecidableEq

/-- The observable outcome of building the trigger payload in
`dawn_middleware.trigger_agent`: either the payload, or the `NameError`
raised when the local `relevance_conversation_id` was never assigned. -/
inductive TriggerOutcome where
| crash
| payload (p : TriggerPayload)
deriving DecidableEq

/-- Payload construction of `dawn_middleware.trigger_agent` (lines
68-92): read the conversation row; if one exists, bind the local
variable to its conversation-id column; attach `conversation_id` to the
payload only when that local differs from the sentinel.  With an empty
table the comparison reads an unbound local and raises `NameError`. -/
def trigger_agent_payload (db : DB) (agent_id user_content : String) : TriggerOutcome :=
  match fetchOne db with
  | none => .crash
  | some conversation =>
    if conversation.convId ≠ sentinel then
      .payload ⟨"user", user_content, agent_id, some conversation.convId⟩
    else
      .payload ⟨"user", user_content, agent_id, none⟩

/-- Python truthiness of an optional string: `None` and `''` are
falsy. -/
def truthyStr : Option String → Bool
  | none => false
  | some s => s != ""

/-- Payload construction of `translator.trigger_agent` (lines 42-51):
`conversation_id` defaults to `None` and is attached only when
truthy. -/
def translator_trigger_payload (agent_id user_content : String)
    (conversation_id : Option String) : TriggerPayload :=
  if truthyStr conversation_id then
    ⟨"user", user_content, agent_id, conversation_id⟩
  else
    ⟨"user", user_content, agent_id, none⟩

/-- One inbound chat message. -/
structure Message where
  role : String
  content : String
deriving DecidableEq

/-- The inbound chat-completion request body: `model` and `messages`. -/
structure ChatRequest where
  model : String
  messages : List Message
deriving DecidableEq

/-- The handler's user-message extraction:
`next((m['content'] for m in reversed(messages) if m['role'] == 'user'), None)`. -/
def userContentOf (ms : List Message) : Option String :=
  (ms.reverse.find? (fun m => m.role == "user")).map (fun m => m.content)

/-- `job['job_info']`: the two ids, each possibly absent (`.get`). -/
structure JobInfo where
  studio_id : Option String
  job_id : Option String

/-- The decoded trigger response: presence of the `conversation_id` and
`job_info` keys.  A failed trigger call (`None`) is `Option.none` at
the use site. -/
structure TriggerResponse where
  conversation_id : Option String
  job_info : Option JobInfo

/-- The upstream world a single request observes: the trigger call's
result and the per-iteration poll responses. -/
structure Env where
  triggerResult : Option TriggerResponse
  pollResponses : Nat → PollResponse

/-- The distinguishable responses of the `/chat/completions` handler. -/
inductive ChatResult where
| noUserMessage
| triggerFailed
| invalidTriggerResponse
| missingJobIds
| pollFailed
| crash
| stream (events : List StreamEvent)
deriving DecidableEq

/-- The handler's full observable outcome: the HTTP result, the final
state of the conversation table, and whether the upstream trigger HTTP
call was issued. -/
structure ChatOutcome where
  result : ChatResult
  db : DB
  triggerCalled : Bool

/-- The `/chat/completions` handler of `dawn_middleware.py` (lines
208-297), with the upstream interactions supplied by `env`.  The first
database block runs before the user message is validated; the
`NameError` path of `trigger_agent` aborts before any HTTP request is
issued. -/
def chat_completions (db : DB) (req : ChatRequest) (env : Env) : ChatOutcome :=
  let db1 := (upsertPhase1 db req.model).1
  let uc := userContentOf req.messages
  if truthyStr uc then
    match trigger_agent_payload db1 req.model (uc.getD "") with
    | .crash => ⟨.crash, db1, false⟩
    | .payload _ =>
      match env.triggerResult with
      | none => ⟨.triggerFailed, db1, true⟩
      | some job =>
        match job.conversation_id, job.job_info with
        | none, _ => ⟨.invalidTriggerResponse, db1, true⟩
        | some _, none => ⟨.invalidTriggerResponse, db1, true⟩
        | some cid, some ji =>
          if truthyStr ji.studio_id && truthyStr ji.job_id then
            match (poll_for_updates env.pollResponses).1 with
            | .success d =>
              if d.isEmpty then ⟨.pollFailed, db1, true⟩
              else
                ⟨.stream (generate (dictGet d "answer" "")), upsertPhase2 db1 cid, true⟩
            | .transportError => ⟨.pollFailed, db1, true⟩
            | .timeout => ⟨.pollFailed, db1, true⟩
          else ⟨.missingJobIds, db1, true⟩
  else ⟨.noUserMessage, db1, false⟩

/-! ### Helper lemmas about the polling loop -/

theorem pollAux_step_continue (s : Nat → PollResponse) (f k : Nat) (st : PollStatus)
    (hs : s k = .ok st) (hn : successOf st = none) :
    pollAux s (f + 1) k = pollAux s f (k + 1) := by
  simp [pollAux, hs, hn]

theorem pollAux_step_err (s : Nat → PollResponse) (f k : Nat)
    (hs : s k = .err) :
    pollAux s (f + 1) k = (.transportError, k + 1) := by
  simp [pollAux, hs]

theorem pollAux_step_success (s : Nat → PollResponse) (f k : Nat) (st : PollStatus)
    (a : AnswerDict) (hs : s k = .ok st) (ha : successOf st = some a) :
    pollAux s (f + 1) k = (.success a, k + 1) := by
  simp [pollAux, hs, ha]

theorem continue_shape (s : Nat → PollResponse) (k : Nat)
    (h : continuesPolling (s k) = true) :
    ∃ st, s k = .ok st ∧ successOf st = none := by
  cases hs : s k with
  | err => rw [hs] at h; simp [continuesPolling] at h
  | ok st =>
    refine ⟨st, rfl, ?_⟩
    rw [hs] at h
    simpa [continuesPolling, Option.isNone_iff_eq_none] using h

theorem pollAux_skip (s : Nat → PollResponse) :
    ∀ (i fuel k : Nat), i ≤ fuel →
      (∀ j, j < i → continuesPolling (s (k + j)) = true) →
      pollAux s fuel k = pollAux s (fuel - i) (k + i) := by
  intro i
  induction i with
  | zero => intro fuel k _ _; simp
  | succ i ih =>
    intro fuel k hle hpre
    obtain ⟨f, rfl⟩ : ∃ f, fuel = f + 1 := ⟨fuel - 1, by omega⟩
    have h0 : continuesPolling (s k) = true := by
      have := hpre 0 (Nat.succ_pos i)
      simpa using this
    obtain ⟨st, hs, hn⟩ := continue_shape s k h0
    rw [pollAux_step_continue s f k st hs hn]
    have hpre' : ∀ j, j < i → continuesPolling (s (k + 1 + j)) = true := by
      intro j hj
      have := hpre (j + 1) (by omega)
      have heq : k + (j + 1) = k + 1 + j := by omega
      rwa [heq] at this
    have := ih f (k + 1) (by omega) hpre'
    rw [this]
    have h1 : f + 1 - (i + 1) = f - i := by omega
    have h2 : k + 1 + i = k + (i + 1) := by omega
    rw [h1, h2]

theorem pollAux_timeout_all (s : Nat → PollResponse) :
    ∀ (fuel k : Nat), (pollAux s fuel k).1 = .timeout →
      (∀ i, i < fuel → continuesPolling (s (k + i)) = true) ∧
      (pollAux s fuel k).2 = k + fuel := by
  intro fuel
  induction fuel with
  | zero =>
    intro k _
    exact ⟨fun i h => absurd h (Nat.not_lt_zero i), by simp [pollAux]⟩
  | succ f ih =>
    intro k ht
    cases hs : s k with
    | err => rw [pollAux_step_err s f k hs] at ht; simp at ht
    | ok st =>
      cases hn : successOf st with
      | some a => rw [pollAux_step_success s f k st a hs hn] at ht; simp at ht
      | none =>
        have hrec := pollAux_step_continue s f k st hs hn
        rw [hrec] at ht
        obtain ⟨h1, h2⟩ := ih (k + 1) ht
        constructor
        · intro i hi
          cases i with
          | zero => simp [continuesPolling, hs, hn]
          | succ j =>
            have := h1 j (by omega)
            have heq : k + 1 + j = k + (j + 1) := by omega
            rwa [heq] at this
        · rw [hrec, h2]; omega

theorem findChainSuccess_eq_find (us : List Update) :
    findChainSuccess us =
      (us.find? (fun x => x.type == "chain-success")).map (fun x => x.output.output) := by
  induction us with
  | nil => rfl
  | cons u rest ih =>
    by_cases h : u.type = "chain-success"
    · simp [findChainSuccess, h, List.find?_cons]
    · simp [findChainSuccess, h, List.find?_cons, ih]

/-! ### Claim theorems about the polling loop -/

/-- Claim C2: when the poll loop reaches a status response of type
`complete`, it returns the `output.output` payload of the first update
in the `updates` sequence whose `type` is `chain-success`, ignoring all
other updates before or after it. -/
theorem poll_first_chain_success (s : Nat → PollResponse) (i : Nat)
    (st : PollStatus) (u : Update)
    (hi : i < MAX_POLL_ATTEMPTS)
    (hpre : ∀ j, j < i → continuesPolling (s j) = true)
    (hs : s i = PollResponse.ok st)
    (hc : st.type = "complete")
    (hu : st.updates.find? (fun x => x.type == "chain-success") = some u) :
    (poll_for_updates s).1 = PollResult.success u.output.output := by
  have ha : successOf st = some u.output.output := by
    simp [successOf, hc, findChainSuccess_eq_find, hu]
  have hpre' : ∀ j, j < i → continuesPolling (s (0 + j)) = true := by
    intro j hj; simpa using hpre j hj
  have hskip := pollAux_skip s i MAX_POLL_ATTEMPTS 0 (Nat.le_of_lt hi) hpre'
  obtain ⟨f, hf⟩ : ∃ f, MAX_POLL_ATTEMPTS - i = f + 1 :=
    ⟨MAX_POLL_ATTEMPTS - i - 1, by omega⟩
  have hs' : s (0 + i) = PollResponse.ok st := by simpa using hs
  rw [poll_for_updates, hskip, hf, pollAux_step_success s f (0 + i) st _ hs' ha]

/-- Claim C2 witness: a first response of type `complete` whose only
update is a chain-success carrying the answer makes the loop return
that answer. -/
theorem poll_first_chain_success_witness :
    (poll_for_updates (fun _ =>
        PollResponse.ok ⟨"complete", [⟨"chain-success", ⟨[("answer", "Hi")]⟩⟩]⟩)).1 =
      PollResult.success [("answer", "Hi")] := by
  exact poll_first_chain_success
    (fun _ => PollResponse.ok ⟨"complete", [⟨"chain-success", ⟨[("answer", "Hi")]⟩⟩]⟩)
    0 ⟨"complete", [⟨"chain-success", ⟨[("answer", "Hi")]⟩⟩]⟩
    ⟨"chain-success", ⟨[("answer", "Hi")]⟩⟩
    (by decide) (fun j hj => absurd hj (Nat.not_lt_zero j)) rfl rfl (by decide)

/-- Claim C3: the loop exits with the timeout outcome exactly when all
of its first `MAX_POLL_ATTEMPTS` iterations saw a transport-successful
response that yields no answer; in that case it has issued exactly
`MAX_POLL_ATTEMPTS` status requests, never more and never fewer.  A
`complete` status whose updates hold no chain-success update counts as
such a non-successful iteration. -/
theorem poll_timeout_exact (s : Nat → PollResponse) :
    (((poll_for_updates s).1 = PollResult.timeout ↔
        ∀ i, i < MAX_POLL_ATTEMPTS → continuesPolling (s i) = true) ∧
      ((poll_for_updates s).1 = PollResult.timeout →
        (poll_for_updates s).2 = MAX_POLL_ATTEMPTS)) ∧
    (∀ st : PollStatus, st.type = "complete" → findChainSuccess st.updates = none →
      continuesPolling (PollResponse.ok st) = true) := by
  refine ⟨⟨⟨?_, ?_⟩, ?_⟩, ?_⟩
  · intro ht i hi
    have := (pollAux_timeout_all s MAX_POLL_ATTEMPTS 0 ht).1 i hi
    simpa using this
  · intro hall
    have hpre : ∀ j, j < MAX_POLL_ATTEMPTS → continuesPolling (s (0 + j)) = true := by
      intro j hj; simpa using hall j hj
    have hskip := pollAux_skip s MAX_POLL_ATTEMPTS MAX_POLL_ATTEMPTS 0 (Nat.le_refl _) hpre
    rw [poll_for_updates, hskip]
    simp [pollAux]
  · intro ht
    have := (pollAux_timeout_all s MAX_POLL_ATTEMPTS 0 ht).2
    simpa using this
  · intro st h1 h2
    simp [continuesPolling, successOf, h1, h2]

/-- Claim C3 witness: a stream of permanently pending statuses times
out after exactly 120 requests. -/
theorem poll_timeout_exact_witness :
    (poll_for_updates (fun _ => PollResponse.ok ⟨"pending", []⟩)).1 = PollResult.timeout ∧
    (poll_for_updates (fun _ => PollResponse.ok ⟨"pending", []⟩)).2 = MAX_POLL_ATTEMPTS := by
  have h := poll_timeout_exact (fun _ => PollResponse.ok ⟨"pending", []⟩)
  have h1 : (poll_for_updates (fun _ => PollResponse.ok ⟨"pending", []⟩)).1 =
      PollResult.timeout := h.1.1.2 (fun i _ => by decide)
  exact ⟨h1, h.1.2 h1⟩

/-- Claim C6: a transport/HTTP failure at iteration `k` terminates the
poll loop at once with the upstream-failure outcome, after exactly
`k + 1` status requests — no further iterations are performed and the
attempt budget is irrelevant; only answer-free successful responses
lead to a retry. -/
theorem poll_transport_error_aborts (s : Nat → PollResponse) (k : Nat)
    (hk : k < MAX_POLL_ATTEMPTS)
    (hpre : ∀ j, j < k → continuesPolling (s j) = true)
    (he : s k = PollResponse.err) :
    poll_for_updates s = (PollResult.transportError, k + 1) := by
  have hpre' : ∀ j, j < k → continuesPolling (s (0 + j)) = true := by
    intro j hj; simpa using hpre j hj
  have hskip := pollAux_skip s k MAX_POLL_ATTEMPTS 0 (Nat.le_of_lt hk) hpre'
  obtain ⟨f, hf⟩ : ∃ f, MAX_POLL_ATTEMPTS - k = f + 1 :=
    ⟨MAX_POLL_ATTEMPTS - k - 1, by omega⟩
  have he' : s (0 + k) = PollResponse.err := by simpa using he
  rw [poll_for_updates, hskip, hf, pollAux_step_err s f (0 + k) he']
  simp

/-- Claim C6 witness: an immediate transport failure aborts the loop
after a single request. -/
theorem poll_transport_error_aborts_witness :
    poll_for_updates (fun _ => PollResponse.err) = (PollResult.transportError, 1) := by
  exact poll_transport_error_aborts (fun _ => PollResponse.err) 0 (by decide)
    (fun j hj => absurd hj (Nat.not_lt_zero j)) rfl

/-! ### Helper lemmas about the conversation store -/

theorem upsert_nil (a c : String) : upsert [] a c = [⟨a, c⟩] := by
  by_cases hc : c = sentinel
  · simp [upsert, upsertPhase1, upsertPhase2, fetchOne, hc]
  · simp [upsert, upsertPhase1, upsertPhase2, fetchOne, updateConvId, hc]

theorem upsert_single_live (r : Row) (a c : String) (h : r.convId ≠ sentinel) :
    upsert [r] a c = [⟨a, if c = sentinel then r.convId else c⟩] := by
  by_cases hc : c = sentinel
  · simp [upsert, upsertPhase1, upsertPhase2, fetchOne, updateAgentId, h, hc]
  · simp [upsert, upsertPhase1, upsertPhase2, fetchOne, updateAgentId, updateConvId, h, hc]

theorem upsert_single_sentinel (r : Row) (a c : String) (h : r.convId = sentinel) :
    upsert [r] a c = [⟨r.agentId, if c = sentinel then sentinel else c⟩] := by
  obtain ⟨ra, rc⟩ := r
  simp only at h
  subst h
  by_cases hc : c = sentinel
  · simp [upsert, upsertPhase1, upsertPhase2, fetchOne, hc]
  · simp [upsert, upsertPhase1, upsertPhase2, fetchOne, updateConvId, hc]

theorem upsertPhase1_length (db : DB) (a : String) :
    (upsertPhase1 db a).1.length = max db.length 1 := by
  cases db with
  | nil => simp [upsertPhase1, fetchOne]
  | cons r t =>
    by_cases h : r.convId = sentinel
    · simp [upsertPhase1, fetchOne, h]
    · simp [upsertPhase1, fetchOne, updateAgentId, h]

theorem upsertPhase2_length (db : DB) (c : String) :
    (upsertPhase2 db c).length = db.length := by
  by_cases h : c = sentinel
  · simp [upsertPhase2, h]
  · simp [upsertPhase2, updateConvId, h]

theorem upsert_length (db : DB) (a c : String) :
    (upsert db a c).length = max db.length 1 := by
  rw [upsert, upsertPhase2_length, upsertPhase1_length]

/-! ### Claim theorems about the conversation store -/

/-- Claim C4 counterexample: with an existing record whose stored
conversation id is the sentinel, the handler leaves `agentId`
untouched, while the specified upsert would always update it. -/
theorem upsert_agent_update_counterexample :
    upsert [⟨"a1", "1234"⟩] "a2" "c9" = [⟨"a1", "c9"⟩] ∧
    upsertSpec [⟨"a1", "1234"⟩] "a2" "c9" = [⟨"a2", "c9"⟩] ∧
    upsert [⟨"a1", "1234"⟩] "a2" "c9" ≠ upsertSpec [⟨"a1", "1234"⟩] "a2" "c9" := by
  decide

/-- Claim C4 (amended): if no record exists, the request's store
operations create one with the supplied values; if a record exists,
`agentId` is updated only when the stored conversation id is not the
sentinel, and the stored conversation id is updated only when the
supplied `conversationId` is not the sentinel. -/
theorem upsert_characterization (r : Row) (a c : String) :
    upsert [] a c = [⟨a, c⟩] ∧
    (r.convId ≠ sentinel → upsert [r] a c = [⟨a, if c = sentinel then r.convId else c⟩]) ∧
    (r.convId = sentinel → upsert [r] a c = [⟨r.agentId, if c = sentinel then sentinel else c⟩]) :=
  ⟨upsert_nil a c, upsert_single_live r a c, upsert_single_sentinel r a c⟩

/-- Claim C4 witness: evaluating the amended characterization on
concrete stores. -/
theorem upsert_characterization_witness :
    upsert [] "a1" "c1" = [⟨"a1", "c1"⟩] ∧
    upsert [⟨"a0", "c0"⟩] "a1" "c1" = [⟨"a1", "c1"⟩] := by
  have h := upsert_characterization ⟨"a0", "c0"⟩ "a1" "c1"
  refine ⟨h.1, ?_⟩
  have h2 := h.2.1 (by decide)
  rw [if_neg (by decide)] at h2
  exact h2

/-- Claim C7: the conversation table holds at most one row under every
store operation the handlers perform: the per-request upsert inserts a
new row only when no row exists (otherwise row count is preserved), and
`delete_all_records` removes every row. -/
theorem store_single_row_invariant (db : DB) (a c : String)
    (hdb : db.length ≤ 1) :
    (upsert db a c).length ≤ 1 ∧
    (db ≠ [] → (upsert db a c).length = db.length) ∧
    delete_all_records db = [] := by
  refine ⟨?_, ?_, rfl⟩
  · rw [upsert_length]; omega
  · intro hne
    rw [upsert_length]
    cases db with
    | nil => exact absurd rfl hne
    | cons r t => simp

/-- Claim C7 witness: the invariant is preserved on a concrete
single-row store. -/
theorem store_single_row_invariant_witness :
    (upsert [⟨"a0", "c0"⟩] "a1" "c1").length ≤ 1 ∧
    (upsert [⟨"a0", "c0"⟩] "a1" "c1").length = 1 ∧
    delete_all_records [⟨"a0", "c0"⟩] = [] := by
  have h := store_single_row_invariant [⟨"a0", "c0"⟩] "a1" "c1" (by decide)
  exact ⟨h.1, h.2.1 (by decide), h.2.2⟩

/-- Claim C9 counterexample: starting from a record holding the
sentinel conversation id, one upsert updates only the conversation id;
a second identical upsert then also updates the agent id, so the second
call changes the record again. -/
theorem upsert_idempotence_counterexample :
    upsert [⟨"x", "1234"⟩] "y" "z" = [⟨"x", "z"⟩] ∧
    upsert (upsert [⟨"x", "1234"⟩] "y" "z") "y" "z" = [⟨"y", "z"⟩] ∧
    upsert (upsert [⟨"x", "1234"⟩] "y" "z") "y" "z" ≠ upsert [⟨"x", "1234"⟩] "y" "z" := by
  decide

/-- Claim C9 (amended): the per-request upsert is idempotent for
identical inputs except in one case — when the existing record holds
the sentinel conversation id, the supplied conversation id is not the
sentinel, and the supplied agent id differs from the stored one.  On
single-row stores, idempotence holds whenever the store is empty, or
the stored conversation id is not the sentinel, or the supplied
conversation id is the sentinel, or the supplied agent id equals the
stored one. -/
theorem upsert_idempotent_cases (db : DB) (a c : String)
    (hdb : db.length ≤ 1)
    (hcase : db = [] ∨ (∀ r ∈ db, r.convId ≠ sentinel) ∨ c = sentinel ∨
      (∀ r ∈ db, r.agentId = a)) :
    upsert (upsert db a c) a c = upsert db a c := by
  cases db with
  | nil =>
    rw [upsert_nil a c]
    by_cases hc : c = sentinel
    · rw [upsert_single_sentinel ⟨a, c⟩ a c hc, if_pos hc, hc]
    · rw [upsert_single_live ⟨a, c⟩ a c hc, if_neg hc]
  | cons r t =>
    obtain ⟨rfl⟩ : t = [] := by
      cases t with
      | nil => rfl
      | cons r2 t2 => simp at hdb
    by_cases hr : r.convId = sentinel
    · -- the stored conversation id is the sentinel
      rw [upsert_single_sentinel r a c hr]
      by_cases hc : c = sentinel
      · rw [if_pos hc, upsert_single_sentinel ⟨r.agentId, sentinel⟩ a c rfl, if_pos hc]
      · -- the exceptional shape: only allowed when a = r.agentId
        have ha : r.agentId = a := by
          rcases hcase with h | h | h | h
          · simp at h
          · exact absurd hr (h r (by simp))
          · exact absurd h hc
          · exact h r (by simp)
        rw [if_neg hc, upsert_single_live ⟨r.agentId, c⟩ a c hc, if_neg hc, ha]
    · -- the stored conversation id is live
      rw [upsert_single_live r a c hr]
      by_cases hc : c = sentinel
      · rw [if_pos hc, upsert_single_live ⟨a, r.convId⟩ a c hr, if_pos hc]
      · rw [if_neg hc, upsert_single_live ⟨a, c⟩ a c hc, if_neg hc]

/-- Claim C9 witness: idempotence on a concrete store whose record
holds a live (non-sentinel) conversation id. -/
theorem upsert_idempotent_cases_witness :
    upsert (upsert [⟨"a0", "c0"⟩] "a1" "c1") "a1" "c1" = upsert [⟨"a0", "c0"⟩] "a1" "c1" := by
  exact upsert_idempotent_cases [⟨"a0", "c0"⟩] "a1" "c1" (by decide)
    (Or.inr (Or.inl (by decide)))

/-! ### Helper lemmas about the response streamer -/

theorem takeWhile_generate (ws : List String) :
    ((ws.map (fun word => StreamEvent.chunk (word ++ " ") "assistant")) ++
        [StreamEvent.done]).takeWhile isChunk =
      ws.map (fun word => StreamEvent.chunk (word ++ " ") "assistant") := by
  induction ws with
  | nil => rfl
  | cons w ws ih => simp [List.takeWhile, isChunk, ih]

theorem deltaContents_generate (t : String) :
    deltaContents (generate t) = (pySplit t).map (fun word => word ++ " ") := by
  rw [generate, deltaContents, takeWhile_generate]
  induction pySplit t with
  | nil => rfl
  | cons w ws ih => simpa [List.filterMap] using ih

theorem concatStrings_trailing (ws : List String) :
    concatStrings (ws.map (fun word => word ++ " ")) =
      if ws.isEmpty then "" else joinWords ws ++ " " := by
  induction ws with
  | nil => rfl
  | cons w ws ih =>
    cases ws with
    | nil => simp [concatStrings, joinWords]
    | cons w2 ws2 =>
      rw [List.map_cons, concatStrings, ih]
      simp [joinWords, String.append_assoc]

theorem getLast_append_singleton {α : Type} (l : List α) (a : α) :
    (l ++ [a]).getLast? = some a := by
  induction l with
  | nil => rfl
  | cons x xs ih =>
    cases xs with
    | nil => rfl
    | cons y ys => simpa [List.getLast?_cons_cons] using ih

/-! ### Claim theorems about the response streamer -/

/-- Claim C1 counterexample: for the answer text `Hi friend`, which is
already single-space separated, the concatenation of the `delta.content`
fields carries a trailing space and therefore does not reproduce the
answer text. -/
theorem stream_concat_counterexample :
    joinWords (pySplit "Hi friend") = "Hi friend" ∧
    concatContents (generate "Hi friend") = "Hi friend " ∧
    concatContents (generate "Hi friend") ≠ "Hi friend" := by
  decide

/-- Claim C1 (amended): for every answer text, `generate` emits exactly
`wordCount` chunk events plus one sentinel, the last event being the
end-of-stream sentinel, and the concatenation of the `delta.content`
fields before the sentinel is the words of the answer text joined by
single spaces followed by one trailing space (empty when the text has
no words). -/
theorem stream_shape (t : String) :
    (generate t).length = wordCount t + 1 ∧
    (generate t).getLast? = some StreamEvent.done ∧
    concatContents (generate t) =
      (if (pySplit t).isEmpty then "" else joinWords (pySplit t) ++ " ") := by
  refine ⟨?_, ?_, ?_⟩
  · simp [generate, wordCount]
  · rw [generate, getLast_append_singleton]
  · rw [concatContents, deltaContents_generate, concatStrings_trailing]

/-! ### Claim theorems about the trigger payload -/

/-- Claim C5: in `dawn_middleware.trigger_agent`, with a conversation
row present, the outbound payload omits `conversation_id` exactly when
the stored conversation id equals the sentinel and otherwise carries it
verbatim; in `translator.trigger_agent`, the payload omits
`conversation_id` exactly when the supplied value is absent (`None` or
the empty string) and otherwise carries it verbatim. -/
theorem trigger_sentinel_omission (db : DB) (r : Row) (a u : String)
    (cid : Option String) (v : String) :
    (fetchOne db = some r → r.convId = sentinel →
      trigger_agent_payload db a u = TriggerOutcome.payload ⟨"user", u, a, none⟩) ∧
    (fetchOne db = some r → r.convId ≠ sentinel →
      trigger_agent_payload db a u = TriggerOutcome.payload ⟨"user", u, a, some r.convId⟩) ∧
    ((cid = none ∨ cid = some "") →
      (translator_trigger_payload a u cid).conversation_id = none) ∧
    (cid = some v → v ≠ "" →
      (translator_trigger_payload a u cid).conversation_id = some v) := by
  refine ⟨?_, ?_, ?_, ?_⟩
  · intro hdb hc
    simp [trigger_agent_payload, hdb, hc]
  · intro hdb hc
    simp [trigger_agent_payload, hdb, hc]
  · rintro (rfl | rfl) <;> simp [translator_trigger_payload, truthyStr]
  · rintro rfl hv
    simp [translator_trigger_payload, truthyStr, hv]

/-- Claim C5 witness: a stored sentinel omits the field, a live stored
id and a truthy supplied id are carried verbatim. -/
theorem trigger_sentinel_omission_witness :
    trigger_agent_payload [⟨"a0", "1234"⟩] "a1" "hello" =
      TriggerOutcome.payload ⟨"user", "hello", "a1", none⟩ ∧
    trigger_agent_payload [⟨"a0", "conv-9"⟩] "a1" "hello" =
      TriggerOutcome.payload ⟨"user", "hello", "a1", some "conv-9"⟩ ∧
    (translator_trigger_payload "a1" "hello" none).conversation_id = none ∧
    (translator_trigger_payload "a1" "hello" (some "conv-9")).conversation_id = some "conv-9" := by
  refine ⟨?_, ?_, ?_, ?_⟩
  · exact (trigger_sentinel_omission [⟨"a0", "1234"⟩] ⟨"a0", "1234"⟩ "a1" "hello"
      none "conv-9").1 rfl rfl
  · exact (trigger_sentinel_omission [⟨"a0", "conv-9"⟩] ⟨"a0", "conv-9"⟩ "a1" "hello"
      none "conv-9").2.1 rfl (by decide)
  · exact (trigger_sentinel_omission [] ⟨"a0", "c0"⟩ "a1" "hello"
      none "conv-9").2.2.1 (Or.inl rfl)
  · exact (trigger_sentinel_omission [] ⟨"a0", "c0"⟩ "a1" "hello"
      (some "conv-9") "conv-9").2.2.2 rfl (by decide)

/-! ### Helper lemmas about the handler pipeline -/

theorem userContentOf_eq_none (ms : List Message)
    (h : ∀ m ∈ ms, m.role ≠ "user") : userContentOf ms = none := by
  have hf : List.find? (fun m => m.role == "user") ms.reverse = none := by
    rw [List.find?_eq_none]
    intro m hm
    simpa using h m (List.mem_reverse.mp hm)
  rw [userContentOf, hf]
  rfl

theorem upsertPhase1_ne_nil (db : DB) (a : String) :
    (upsertPhase1 db a).1 ≠ [] := by
  intro hcon
  have := upsertPhase1_length db a
  rw [hcon] at this
  simp at this
  omega

theorem trigger_payload_some_ne_crash (db : DB) (r : Row) (a u : String)
    (h : fetchOne db = some r) :
    trigger_agent_payload db a u ≠ TriggerOutcome.crash := by
  by_cases hc : r.convId = sentinel
  · simp [trigger_agent_payload, h, hc]
  · simp [trigger_agent_payload, h, hc]

theorem chat_completions_ne_crash (db : DB) (req : ChatRequest) (env : Env) :
    (chat_completions db req env).result ≠ ChatResult.crash := by
  have hne := upsertPhase1_ne_nil db req.model
  obtain ⟨r, t, hrt⟩ : ∃ r t, (upsertPhase1 db req.model).1 = r :: t := by
    cases hd : (upsertPhase1 db req.model).1 with
    | nil => exact absurd hd hne
    | cons r t => exact ⟨r, t, rfl⟩
  have hfetch : fetchOne (upsertPhase1 db req.model).1 = some r := by
    rw [hrt]; rfl
  have hnc := trigger_payload_some_ne_crash (upsertPhase1 db req.model).1 r req.model
    ((userContentOf req.messages).getD "") hfetch
  rw [chat_completions]
  split
  case isTrue =>
    split
    case h_1 heq => exact absurd heq hnc
    case h_2 =>
      split
      case h_1 => simp
      case h_2 job =>
        split
        case h_1 => simp
        case h_2 => simp
        case h_3 cid ji =>
          split
          case isTrue =>
            split
            case h_1 =>
              split
              case isTrue => simp
              case isFalse => simp
            case h_2 => simp
            case h_3 => simp
          case isFalse => simp
  case isFalse => simp

/-! ### Claim theorems about the handler pipeline -/

/-- Claim C8: when no inbound message has role `user`, the handler
returns the `No user message found` 400 response and no upstream
trigger call is made. -/
theorem no_user_message_rejected (db : DB) (req : ChatRequest) (env : Env)
    (h : ∀ m ∈ req.messages, m.role ≠ "user") :
    (chat_completions db req env).result = ChatResult.noUserMessage ∧
    (chat_completions db req env).triggerCalled = false := by
  have huc : userContentOf req.messages = none := userContentOf_eq_none req.messages h
  rw [chat_completions]
  simp [huc, truthyStr]

/-- Claim C8 witness: a request whose only message is from the
assistant is rejected without an upstream call. -/
theorem no_user_message_rejected_witness :
    (chat_completions [] ⟨"agent-42", [⟨"assistant", "hello"⟩]⟩
        ⟨none, fun _ => PollResponse.err⟩).result = ChatResult.noUserMessage ∧
    (chat_completions [] ⟨"agent-42", [⟨"assistant", "hello"⟩]⟩
        ⟨none, fun _ => PollResponse.err⟩).triggerCalled = false := by
  exact no_user_message_rejected [] ⟨"agent-42", [⟨"assistant", "hello"⟩]⟩
    ⟨none, fun _ => PollResponse.err⟩ (by decide)

/-- Claim C10: building the trigger payload in
`dawn_middleware.trigger_agent` raises the unhandled `NameError`
exactly when the conversation table is empty; the `/chat/completions`
handler establishes the non-empty precondition by inserting a record
before triggering (its first database block never leaves the table
empty), so the handler itself never reaches the crash. -/
theorem trigger_requires_row (db : DB) (a u : String) (req : ChatRequest) (env : Env) :
    (trigger_agent_payload db a u = TriggerOutcome.crash ↔ db = []) ∧
    (upsertPhase1 db a).1 ≠ [] ∧
    (chat_completions db req env).result ≠ ChatResult.crash := by
  refine ⟨⟨?_, ?_⟩, upsertPhase1_ne_nil db a, chat_completions_ne_crash db req env⟩
  · intro hcrash
    cases hdb : db with
    | nil => rfl
    | cons r t =>
      rw [hdb] at hcrash
      exact absurd hcrash (trigger_payload_some_ne_crash (r :: t) r a u rfl)
  · rintro rfl
    rfl

/-- Claim C10 witness: the empty table crashes the payload build, while
the handler's first database block leaves the table non-empty and the
handler does not crash. -/
theorem trigger_requires_row_witness :
    trigger_agent_payload [] "a1" "hello" = TriggerOutcome.crash ∧
    (upsertPhase1 [] "a1").1 ≠ [] ∧
    (chat_completions [] ⟨"a1", [⟨"user", "hello"⟩]⟩
        ⟨none, fun _ => PollResponse.err⟩).result ≠ ChatResult.crash := by
  have h := trigger_requires_row [] "a1" "hello" ⟨"a1", [⟨"user", "hello"⟩]⟩
    ⟨none, fun _ => PollResponse.err⟩
  exact ⟨h.1.mpr rfl, h.2.1, h.2.2⟩

end Middleware
